import Mathlib

/-!
Verification development for the phantom UDP reverse proxy (jhead/phantom-rs).

The development shallowly embeds the parts of the program the claims are about:

* the discovery packet codec (`src/proto/unconnected_ping.rs`,
  `src/proto/unconnected_pong.rs`), embedded at the byte level with machine
  bytes as `Nat` and wire buffers as `List Nat`;
* the listening-socket reader loop and the shutdown sequence of the proxy
  instance (`src/proxy/mod.rs`), embedded as explicit state passing over
  event lists;
* the router's per-client task bookkeeping (`src/proxy/router.rs`).

`bytes::Bytes` cursor operations that can panic (`get_u8`, `copy_to_slice`)
are modelled as `Option`-returning functions where `none` is a panic, so a
decoder has result type `Option (Except String α)`: `none` models a crash,
`some (.error e)` a returned decode error, `some (.ok v)` a successful parse.
-/

set_option maxHeartbeats 1000000
set_option maxRecDepth 100000

/-- Decidable equality on `Except`, so that concrete decoder runs can be
checked with `decide`. -/
instance {ε : Type u} {α : Type v} [DecidableEq ε] [DecidableEq α] :
    DecidableEq (Except ε α) := fun x y =>
  match x, y with
  | .ok a, .ok b =>
    if h : a = b then isTrue (by rw [h]) else isFalse (by intro hc; cases hc; exact h rfl)
  | .error a, .error b =>
    if h : a = b then isTrue (by rw [h]) else isFalse (by intro hc; cases hc; exact h rfl)
  | .ok _, .error _ => isFalse (by intro hc; cases hc)
  | .error _, .ok _ => isFalse (by intro hc; cases hc)

namespace Phantom

/-- A machine byte, modelled as a natural number (values below 256 on real wires). -/
abbrev Byte := Nat

/-- The 16-byte RakNet magic constant, identical in
`unconnected_ping.rs` and `unconnected_pong.rs`. -/
def MAGIC : List Byte :=
  [0x00, 0xff, 0xff, 0x00, 0xfe, 0xfe, 0xfe, 0xfe,
   0xfd, 0xfd, 0xfd, 0xfd, 0x12, 0x34, 0x56, 0x78]

/-- Packet id of the unconnected (discovery) ping. -/
def UNCONNECTED_PING_ID : Byte := 0x01

/-- Packet id of the unconnected (discovery) pong. -/
def UNCONNECTED_PONG_ID : Byte := 0x1c

/-- `bytes::Buf::get_u8`: consume one byte from the cursor.
Panics (modelled as `none`) when the buffer is empty. -/
def getU8 : List Byte → Option (Byte × List Byte)
  | [] => none
  | b :: rest => some (b, rest)

/-- `bytes::Buf::copy_to_slice` into an `n`-byte destination: consume `n`
bytes from the cursor. Panics (modelled as `none`) when fewer than `n`
bytes remain. -/
def copyToSlice (n : Nat) (data : List Byte) : Option (List Byte × List Byte) :=
  if n ≤ data.length then some (data.take n, data.drop n) else none

/-- `bytes::Buf::get_u16`: consume two bytes, big endian.
Panics (modelled as `none`) when fewer than two bytes remain. -/
def getU16 : List Byte → Option (Nat × List Byte)
  | b0 :: b1 :: rest => some (b0 * 256 + b1, rest)
  | _ => none

/-- `bytes::BufMut::put_u16` of `n as u16`: the length is truncated to 16
bits and written big endian. -/
def putU16 (n : Nat) : List Byte :=
  [n % 65536 / 256, n % 256]

/-- `UnconnectedPing` (src/proto/unconnected_ping.rs): `ping_time: [u8; 8]`,
`magic: [u8; 16]`, `client_id: [u8; 8]`, each embedded as a byte list. -/
structure UnconnectedPing where
  ping_time : List Byte
  magic : List Byte
  client_id : List Byte
deriving DecidableEq, Repr

/-- `UnconnectedPing::new`: fresh ping with the fixed magic. -/
def UnconnectedPing.new (client_id ping_time : List Byte) : UnconnectedPing :=
  { ping_time := ping_time, magic := MAGIC, client_id := client_id }

/-- `UnconnectedPing::build`: packet id `0x01`, then ping_time (8 bytes),
then magic (16 bytes), then client_id (8 bytes). -/
def UnconnectedPing.build (p : UnconnectedPing) : List Byte :=
  UNCONNECTED_PING_ID :: (p.ping_time ++ (p.magic ++ p.client_id))

/-- `UnconnectedPing::from_bytes`: rejects buffers shorter than 25 bytes
(the source comment miscounts the minimum as `1 + 8 + 16 = 25`, omitting
the 8 client_id bytes), rejects a wrong packet id, then reads
ping_time (8), magic (16) and client_id (8) with `copy_to_slice`.
`none` models a `copy_to_slice` panic. -/
def UnconnectedPing.fromBytes (data : List Byte) : Option (Except String UnconnectedPing) :=
  if data.length < 25 then
    some (.error "Data too short for UnconnectedPing packet")
  else
    match getU8 data with
    | none => none
    | some (packetId, r1) =>
      if packetId ≠ UNCONNECTED_PING_ID then
        some (.error "Invalid packet ID for UnconnectedPing")
      else
        match copyToSlice 8 r1 with
        | none => none
        | some (ping_time, r2) =>
          match copyToSlice 16 r2 with
          | none => none
          | some (magic, r3) =>
            match copyToSlice 8 r3 with
            | none => none
            | some (client_id, _r4) =>
              some (.ok { ping_time := ping_time, magic := magic, client_id := client_id })

/-! ### UTF-8 (std `String::from_utf8` / UTF-8 byte encoding of a `String`)

Rust strings are sequences of Unicode scalar values, exactly Lean's
`List Char`.  The payload of a pong packet crosses the wire as UTF-8 bytes,
so the embedding carries an explicit UTF-8 codec.  The decoder accepts a
byte list exactly when `String::from_utf8` accepts it: continuation bytes
must be in `0x80..0xbf`, and the decoded scalar value must be in the
canonical range for its sequence length (no overlong forms), not a
surrogate, and at most `0x10ffff`. -/

/-- UTF-8 encoding of one Unicode scalar value. -/
def utf8EncodeChar (c : Char) : List Byte :=
  let n := c.toNat
  if n < 0x80 then [n]
  else if n < 0x800 then [0xc0 + n / 0x40, 0x80 + n % 0x40]
  else if n < 0x10000 then [0xe0 + n / 0x1000, 0x80 + n / 0x40 % 0x40, 0x80 + n % 0x40]
  else [0xf0 + n / 0x40000, 0x80 + n / 0x1000 % 0x40, 0x80 + n / 0x40 % 0x40, 0x80 + n % 0x40]

/-- UTF-8 encoding of a string (`String::as_bytes` on a Rust string). -/
def utf8Encode (s : List Char) : List Byte :=
  (s.map utf8EncodeChar).flatten

/-- Continuation of a two-byte UTF-8 sequence whose leading byte is `b`:
one continuation byte in `0x80..0xbf`; the scalar value must not be an
overlong form of an ASCII value. Returns the scalar and the unread rest. -/
def utf8DecodeTwo (b : Byte) : List Byte → Option (Nat × List Byte)
  | b1 :: rest =>
    if 0x80 ≤ b1 ∧ b1 < 0xc0 then
      let n := (b - 0xc0) * 0x40 + (b1 - 0x80)
      if 0x80 ≤ n then some (n, rest) else none
    else none
  | [] => none

/-- Continuation of a three-byte UTF-8 sequence with leading byte `b`:
two continuation bytes; the scalar must be at least `0x800` (no overlong
form) and must not be a UTF-16 surrogate. -/
def utf8DecodeThree (b : Byte) : List Byte → Option (Nat × List Byte)
  | b1 :: b2 :: rest =>
    if (0x80 ≤ b1 ∧ b1 < 0xc0) ∧ (0x80 ≤ b2 ∧ b2 < 0xc0) then
      let n := (b - 0xe0) * 0x1000 + (b1 - 0x80) * 0x40 + (b2 - 0x80)
      if 0x800 ≤ n ∧ ¬(0xd800 ≤ n ∧ n < 0xe000) then some (n, rest) else none
    else none
  | _ => none

/-- Continuation of a four-byte UTF-8 sequence with leading byte `b`:
three continuation bytes; the scalar must be in `0x10000..0x10ffff`. -/
def utf8DecodeFour (b : Byte) : List Byte → Option (Nat × List Byte)
  | b1 :: b2 :: b3 :: rest =>
    if (0x80 ≤ b1 ∧ b1 < 0xc0) ∧ (0x80 ≤ b2 ∧ b2 < 0xc0) ∧ (0x80 ≤ b3 ∧ b3 < 0xc0) then
      let n := (b - 0xf0) * 0x40000 + (b1 - 0x80) * 0x1000 + (b2 - 0x80) * 0x40 + (b3 - 0x80)
      if 0x10000 ≤ n ∧ n < 0x110000 then some (n, rest) else none
    else none
  | _ => none

/-- Decode one Unicode scalar value from leading byte `b` followed by
`rest`, dispatching on the class of the leading byte. Stray continuation
bytes (`0x80..0xbf`), the never-valid bytes `0xc0`/`0xc1` (overlong) and
`0xf5..` are rejected outright, matching `String::from_utf8`. -/
def utf8DecodeStep (b : Byte) (rest : List Byte) : Option (Nat × List Byte) :=
  if b < 0x80 then some (b, rest)
  else if b < 0xc2 then none
  else if b < 0xe0 then utf8DecodeTwo b rest
  else if b < 0xf0 then utf8DecodeThree b rest
  else if b < 0xf5 then utf8DecodeFour b rest
  else none

/-- Scalar-by-scalar decode loop. `fuel` only makes the recursion
structural: every scalar consumes at least one byte, so `fuel = length` in
`utf8Decode` below is always enough and the `0, _ :: _` arm is unreachable. -/
def utf8DecodeLoop : Nat → List Byte → Option (List Char)
  | _, [] => some []
  | 0, _ :: _ => none
  | fuel + 1, b :: rest =>
    match utf8DecodeStep b rest with
    | none => none
    | some (n, rest1) => (utf8DecodeLoop fuel rest1).map (fun s => Char.ofNat n :: s)

/-- UTF-8 decoding and validation (`String::from_utf8`); `none` exactly on
byte sequences `String::from_utf8` rejects. -/
def utf8Decode (data : List Byte) : Option (List Char) :=
  utf8DecodeLoop data.length data

/-! ### Pong payload (src/proto/unconnected_pong.rs) -/

/-- `PongData`: the 12 semicolon-separated string fields of a pong payload,
each embedded as a `List Char` (a Rust `String`). -/
structure PongData where
  edition : List Char
  motd : List Char
  protocol_version : List Char
  version : List Char
  players : List Char
  max_players : List Char
  server_id : List Char
  sub_motd : List Char
  game_mode : List Char
  game_mode_numeric : List Char
  port4 : List Char
  port6 : List Char
deriving DecidableEq, Repr

/-- `PongData::default` (the `Default` impl), character for character,
including the `§c` colour code inside the motd. -/
def PongData.default : PongData :=
  { edition := "MCPE".data
    motd := "phantom §cServer offline".data
    protocol_version := "800".data
    version := "1.31.83".data
    players := "0".data
    max_players := "1".data
    server_id := "13253860892328930865".data
    sub_motd := "Server Offline".data
    game_mode := "Creative".data
    game_mode_numeric := "1".data
    port4 := "19132".data
    port6 := "19132".data }

/-- The field vector built in `Into<String> for PongData`, in source order. -/
def PongData.fields (p : PongData) : List (List Char) :=
  [p.edition, p.motd, p.protocol_version, p.version, p.players, p.max_players,
   p.server_id, p.sub_motd, p.game_mode, p.game_mode_numeric, p.port4, p.port6]

/-- `Into<String> for PongData`: the 12 fields joined with `;` followed by a
trailing `;` (`format!("{};", joined)` — the brace pair is the format hole). -/
def PongData.intoString (p : PongData) : List Char :=
  List.intercalate [';'] p.fields ++ [';']

/-- `PongData::from_string`: split on `;`, error on an empty part list
(unreachable, `split` always yields at least one part), then overwrite the
default fields in order with every part that is present. -/
def PongData.fromString (data : List Char) : Except String PongData :=
  let parts := data.splitOn ';'
  if parts.isEmpty then .error "Empty pong data string"
  else
    let pong := PongData.default
    let pong := if 0 < parts.length then { pong with edition := parts.getD 0 [] } else pong
    let pong := if 1 < parts.length then { pong with motd := parts.getD 1 [] } else pong
    let pong := if 2 < parts.length then { pong with protocol_version := parts.getD 2 [] } else pong
    let pong := if 3 < parts.length then { pong with version := parts.getD 3 [] } else pong
    let pong := if 4 < parts.length then { pong with players := parts.getD 4 [] } else pong
    let pong := if 5 < parts.length then { pong with max_players := parts.getD 5 [] } else pong
    let pong := if 6 < parts.length then { pong with server_id := parts.getD 6 [] } else pong
    let pong := if 7 < parts.length then { pong with sub_motd := parts.getD 7 [] } else pong
    let pong := if 8 < parts.length then { pong with game_mode := parts.getD 8 [] } else pong
    let pong := if 9 < parts.length then { pong with game_mode_numeric := parts.getD 9 [] } else pong
    let pong := if 10 < parts.length then { pong with port4 := parts.getD 10 [] } else pong
    let pong := if 11 < parts.length then { pong with port6 := parts.getD 11 [] } else pong
    .ok pong

/-- `UnconnectedPong` (src/proto/unconnected_pong.rs). -/
structure UnconnectedPong where
  ping_time : List Byte
  server_guid : List Byte
  magic : List Byte
  pong : PongData
deriving DecidableEq, Repr

/-- `UnconnectedPong::new`: fresh pong with zeroed times, the fixed magic
and the default payload. -/
def UnconnectedPong.new : UnconnectedPong :=
  { ping_time := List.replicate 8 0
    server_guid := List.replicate 8 0
    magic := MAGIC
    pong := PongData.default }

/-- `UnconnectedPong::build`: packet id `0x1c`, ping_time (8), server_guid
(8), magic (16), the payload length as `len as u16` big endian, then the
UTF-8 payload bytes. -/
def UnconnectedPong.build (p : UnconnectedPong) : List Byte :=
  let pong_bytes := utf8Encode p.pong.intoString
  UNCONNECTED_PONG_ID ::
    (p.ping_time ++ (p.server_guid ++ (p.magic ++ (putU16 pong_bytes.length ++ pong_bytes))))

/-- `UnconnectedPong::from_bytes`: rejects buffers shorter than 35 bytes
(`1 + 8 + 8 + 16 + 2`), a wrong packet id, a declared payload length
exceeding the remaining bytes, and invalid UTF-8; then parses the payload
with `PongData::from_string`.  `none` models a cursor panic. -/
def UnconnectedPong.fromBytes (data : List Byte) : Option (Except String UnconnectedPong) :=
  if data.length < 35 then
    some (.error "Data too short for UnconnectedPong packet")
  else
    match getU8 data with
    | none => none
    | some (packetId, r1) =>
      if packetId ≠ UNCONNECTED_PONG_ID then
        some (.error "Invalid packet ID for UnconnectedPong")
      else
        match copyToSlice 8 r1 with
        | none => none
        | some (ping_time, r2) =>
          match copyToSlice 8 r2 with
          | none => none
          | some (server_guid, r3) =>
            match copyToSlice 16 r3 with
            | none => none
            | some (magic, r4) =>
              if r4.length < 2 then
                some (.error "Not enough data for pong length")
              else
                match getU16 r4 with
                | none => none
                | some (pong_len, r5) =>
                  if r5.length < pong_len then
                    some (.error "Not enough data for pong content")
                  else
                    match utf8Decode (r5.take pong_len) with
                    | none => some (.error "Invalid UTF-8 in pong data")
                    | some pong_string =>
                      match PongData.fromString pong_string with
                      | .error e => some (.error e)
                      | .ok pong =>
                        some (.ok { ping_time := ping_time, server_guid := server_guid,
                                    magic := magic, pong := pong })

/-- The big-endian 16-bit payload length a pong buffer declares at offset 33. -/
def pongDeclaredLen (data : List Byte) : Nat :=
  match data.drop 33 with
  | b0 :: b1 :: _ => b0 * 256 + b1
  | _ => 0

/-! ### Listening-socket reader loop (src/proxy/mod.rs, `socket_pipe_to_router`)

The reader task loops over a `tokio::select!` between the shutdown signal
and `socket.recv_from`.  Its exact control flow is modelled by a per-
iteration function plus a loop runner over the sequence of events the
select observes. -/

/-- Result of one `socket.recv_from` call: a datagram with the sender's
address, or an I/O error. -/
inductive ReadResult
  | recvOk (data : List Byte) (clientAddr : Nat)
  | recvErr
deriving DecidableEq, Repr

/-- One event the `tokio::select!` in the reader loop can observe. -/
inductive PipeEvent
  | shutdownSignal
  | socketRead (r : ReadResult)
deriving DecidableEq, Repr

/-- A `RouterMessage::PacketFromClient` as placed into the Router's
mailbox (the socket handle is omitted; it carries no decision-relevant
data for the reader loop). -/
structure RouterSend where
  data : List Byte
  clientAddr : Nat
deriving DecidableEq, Repr

/-- Whether the loop body falls through to another iteration or leaves the
loop. -/
inductive LoopControl
  | brk
  | cont
deriving DecidableEq, Repr

/-- One iteration of the reader loop: a shutdown signal breaks; a received
datagram is forwarded to the Router and then the unconditional `break`
after the `match` runs; a receive error breaks.  Every arm breaks. -/
def socketPipeIteration : PipeEvent → List RouterSend × LoopControl
  | .shutdownSignal => ([], .brk)
  | .socketRead (.recvOk d a) => ([{ data := d, clientAddr := a }], .brk)
  | .socketRead .recvErr => ([], .brk)

/-- Run `socket_pipe_to_router` over the events the select observes.
Returns the messages forwarded into the Router's mailbox and whether the
loop has exited (`false` means it is still blocked waiting for an event). -/
def socketPipeToRouter : List PipeEvent → List RouterSend × Bool
  | [] => ([], false)
  | e :: rest =>
    match socketPipeIteration e with
    | (sent, .brk) => (sent, true)
    | (sent, .cont) =>
      let r := socketPipeToRouter rest
      (sent ++ r.1, r.2)

/-! ### Task bookkeeping of the proxy instance and the router
(src/proxy/mod.rs, src/proxy/router.rs, src/actor/mod.rs)

`ProxyInstance` keeps a mutex-guarded `Vec<JoinHandle>` of tasks; only
`spawn_socket_reader` pushes into it.  `Actor::start` and the router's
`try_add_connection` spawn with a bare `tokio::spawn` and register the
handle nowhere.  `handle_shutdown` drains the `Vec` and awaits exactly the
drained handles. -/

/-- Identity of a spawned task: a listening-socket reader, the actor run
loop of the Router, or a per-client upstream reader. -/
inductive TaskId
  | readerTask (n : Nat)
  | routerLoopTask
  | perClientTask (clientAddr : Nat)
deriving DecidableEq, Repr

/-- Bookkeeping state of one proxy instance together with its router:
the handles registered in `ProxyInstance.tasks`, every task ever spawned,
every task awaited by `handle_shutdown`, and the keys of the router's
`client_map`. -/
structure ProxySystem where
  registeredTasks : List TaskId
  spawnedTasks : List TaskId
  joinedTasks : List TaskId
  clientMap : List Nat
deriving DecidableEq, Repr

/-- The state before `listen`: nothing spawned, nothing registered. -/
def ProxySystem.init : ProxySystem :=
  { registeredTasks := [], spawnedTasks := [], joinedTasks := [], clientMap := [] }

/-- The task-relevant operations of the proxy core. -/
inductive ProxyOp
  | startRouter
  | spawnSocketReader (n : Nat)
  | packetFromClient (clientAddr : Nat)
  | runHandleShutdown
deriving DecidableEq, Repr

/-- One operation, exactly as the source performs it:
`Actor::start` spawns the run loop without registering it;
`spawn_socket_reader` spawns a reader task and pushes its handle into
`ProxyInstance.tasks`; the router handler for a packet from an unknown
client inserts the client into `client_map` and spawns the per-client
reader with a bare `tokio::spawn`, registering it nowhere;
`handle_shutdown` drains `ProxyInstance.tasks` and awaits the drained
handles and nothing else. -/
def ProxySystem.step (st : ProxySystem) : ProxyOp → ProxySystem
  | .startRouter =>
    { st with spawnedTasks := st.spawnedTasks ++ [.routerLoopTask] }
  | .spawnSocketReader n =>
    { st with spawnedTasks := st.spawnedTasks ++ [.readerTask n],
              registeredTasks := st.registeredTasks ++ [.readerTask n] }
  | .packetFromClient a =>
    if a ∈ st.clientMap then st
    else { st with clientMap := a :: st.clientMap,
                   spawnedTasks := st.spawnedTasks ++ [.perClientTask a] }
  | .runHandleShutdown =>
    { st with joinedTasks := st.joinedTasks ++ st.registeredTasks, registeredTasks := [] }

/-- Run a sequence of operations from the initial state. -/
def ProxySystem.run (ops : List ProxyOp) : ProxySystem :=
  ops.foldl ProxySystem.step ProxySystem.init

/-- Result of one `recv_from` on a per-client upstream socket. -/
inductive UpstreamEvent
  | recvOk (data : List Byte)
  | recvErr
deriving DecidableEq, Repr

/-- Exit behaviour of `proxy_remote_read_loop` (src/proxy/router.rs): a
received datagram is relayed and the loop continues; only an I/O error
breaks the loop.  The loop never selects on any cancellation signal.
Returns whether the loop has exited after the given events (`false` means
it is still blocked in `recv_from`). -/
def proxyRemoteReadLoopExits : List UpstreamEvent → Bool
  | [] => false
  | .recvOk _ :: rest => proxyRemoteReadLoopExits rest
  | .recvErr :: _ => true

/-! ### Lifecycle of `ProxyInstance::listen` (src/proxy/mod.rs) -/

/-- The error type of the public API (src/api/mod.rs). -/
inductive PhantomError
  | UnknownError (msg : String)
  | FailedToBind (msg : String)
  | FailedToStart (msg : String)
  | IoError (msg : String)
  | InvalidAddress (msg : String)
  | AlreadyRunning
  | LoggerSetupFailed (msg : String)
deriving DecidableEq, Repr

/-- Outcome of the environment-dependent steps of `listen`: whether
`resolve_remote_address` yields an address, and whether each of the two
binds succeeds. -/
structure ListenEnv where
  resolveOk : Bool
  bindBroadcastOk : Bool
  bindProxyOk : Bool
deriving DecidableEq, Repr

/-- The `running: AtomicBool` of `ProxyInstance`; `is_running` reads it. -/
structure InstanceState where
  running : Bool
deriving DecidableEq, Repr

/-- `ProxyInstance::start_listeners`: binds the broadcast socket (port
19132) and then the proxy socket; an error return drops any socket bound
so far (RAII), so no resource outlives a failure. -/
def startListeners (env : ListenEnv) : Except PhantomError Unit :=
  if ¬ env.bindBroadcastOk then .error (.FailedToBind "bind error")
  else if ¬ env.bindProxyOk then .error (.FailedToBind "bind error")
  else .ok ()

/-- `ProxyInstance::listen`: the `compare_exchange` on `running` fails with
AlreadyRunning when the flag is already set, otherwise sets the flag to
`true` FIRST; the subsequent resolution and bind failures return early
without ever resetting the flag (only the success path's
`handle_shutdown`, which runs after a shutdown signal, stores `false`).
Returns the state of the flag after the call together with the result. -/
def ProxyInstance.listen (st : InstanceState) (env : ListenEnv) :
    InstanceState × Except PhantomError Unit :=
  if st.running then (st, .error .AlreadyRunning)
  else
    let st1 : InstanceState := { running := true }
    if ¬ env.resolveOk then (st1, .error (.InvalidAddress "resolution error"))
    else
      match startListeners env with
      | .error e => (st1, .error e)
      | .ok () => (st1, .ok ())

/-! ### Concrete inputs used by the claims -/

/-- The 25-byte "real packet capture" from the unit test
`test_unconnected_ping_from_real_packet` in src/proto/unconnected_ping.rs:
packet id, 8 bytes of ping_time and the 16 magic bytes — the client_id
bytes are missing. -/
def c1RealPacket : List Byte :=
  [0x01, 0x00, 0x00, 0x00, 0x00, 0x00, 0x09, 0x99, 0xa6, 0x00, 0xff, 0xff, 0x00, 0xfe,
   0xfe, 0xfe, 0xfe, 0xfd, 0xfd, 0xfd, 0xfd, 0x12, 0x34, 0x56, 0x78]

/-- The literal pong payload of spec §8 item 4 — note it carries 13 fields
(an extra trailing `0`) while `PongData` holds only 12. -/
def c5Payload : List Char :=
  "MCPE;Dedicated Server;800;1.21.83;0;10;11675972934497731543;Bedrock level;Survival;1;19132;19133;0;".data

/-- The same payload with only the port4 field replaced by `25565`. -/
def c5ExpectedIfOnlyPort4Changed : List Char :=
  "MCPE;Dedicated Server;800;1.21.83;0;10;11675972934497731543;Bedrock level;Survival;1;25565;19133;0;".data

/-- What re-encoding actually produces: port4 replaced AND the 13th field
dropped. -/
def c5Actual : List Char :=
  "MCPE;Dedicated Server;800;1.21.83;0;10;11675972934497731543;Bedrock level;Survival;1;25565;19133;".data

/-- A pong payload whose only non-empty field is the motd. -/
def onlyMotdPong (m : List Char) : PongData :=
  { edition := [], motd := m, protocol_version := [], version := [], players := [],
    max_players := [], server_id := [], sub_motd := [], game_mode := [],
    game_mode_numeric := [], port4 := [], port6 := [] }

/-- A pong whose payload is exactly 65536 bytes long: eleven empty fields
and a motd of 65524 `a`s, plus the twelve separators/terminator.  Encoding
truncates the length prefix to `65536 % 2^16 = 0`. -/
def bigPongData : PongData :=
  onlyMotdPong (List.replicate 65524 'a')

/-- A pong packet (fresh header) carrying a given payload record. -/
def pongCarrying (x : PongData) : UnconnectedPong :=
  { UnconnectedPong.new with pong := x }

/-- A start-up and shutdown trace: router started, both reader tasks
spawned, one packet from client 7 handled, then the shutdown sequence. -/
def c3Trace : List ProxyOp :=
  [.startRouter, .spawnSocketReader 0, .spawnSocketReader 1, .packetFromClient 7,
   .runHandleShutdown]

/-- A 33-byte ping buffer with an arbitrary non-magic body. -/
def c10PingBuf : List Byte :=
  UNCONNECTED_PING_ID :: List.replicate 32 0xab

/-! ### Lemmas about the UTF-8 codec -/

/-- A character's scalar value is a Unicode scalar value: below the
surrogate range, or above it and at most `0x10ffff`. -/
theorem char_toNat_valid (c : Char) :
    c.toNat < 0xd800 ∨ (0xdfff < c.toNat ∧ c.toNat < 0x110000) := by
  rcases c.valid with h | ⟨h1, h2⟩
  · exact Or.inl (UInt32.toNat_lt_of_lt (by decide) h)
  · exact Or.inr ⟨UInt32.lt_toNat_of_lt (by decide) h1, UInt32.toNat_lt_of_lt (by decide) h2⟩

/-- Decoding one step over an encoded two-byte sequence recovers the scalar. -/
theorem utf8DecodeStep_two {n : Nat} (h1 : 0x80 ≤ n) (h2 : n < 0x800) (rest : List Byte) :
    utf8DecodeStep (0xc0 + n / 0x40) ((0x80 + n % 0x40) :: rest) = some (n, rest) := by
  have ha : ¬ (0xc0 + n / 0x40 < 0x80) := by omega
  have hb : ¬ (0xc0 + n / 0x40 < 0xc2) := by omega
  have hc : 0xc0 + n / 0x40 < 0xe0 := by omega
  have hd : 0x80 ≤ 0x80 + n % 0x40 ∧ 0x80 + n % 0x40 < 0xc0 := by omega
  have he : (0xc0 + n / 0x40 - 0xc0) * 0x40 + (0x80 + n % 0x40 - 0x80) = n := by omega
  rw [utf8DecodeStep, if_neg ha, if_neg hb, if_pos hc, utf8DecodeTwo, if_pos hd, he,
    if_pos h1]

/-- Decoding one step over an encoded three-byte sequence recovers the scalar. -/
theorem utf8DecodeStep_three {n : Nat} (h1 : 0x800 ≤ n) (h2 : n < 0x10000)
    (hs : ¬ (0xd800 ≤ n ∧ n < 0xe000)) (rest : List Byte) :
    utf8DecodeStep (0xe0 + n / 0x1000)
      ((0x80 + n / 0x40 % 0x40) :: (0x80 + n % 0x40) :: rest) = some (n, rest) := by
  have ha : ¬ (0xe0 + n / 0x1000 < 0x80) := by omega
  have hb : ¬ (0xe0 + n / 0x1000 < 0xc2) := by omega
  have hc : ¬ (0xe0 + n / 0x1000 < 0xe0) := by omega
  have hd : 0xe0 + n / 0x1000 < 0xf0 := by omega
  have he : (0x80 ≤ 0x80 + n / 0x40 % 0x40 ∧ 0x80 + n / 0x40 % 0x40 < 0xc0)
      ∧ (0x80 ≤ 0x80 + n % 0x40 ∧ 0x80 + n % 0x40 < 0xc0) := by omega
  have hf : (0xe0 + n / 0x1000 - 0xe0) * 0x1000 + (0x80 + n / 0x40 % 0x40 - 0x80) * 0x40
      + (0x80 + n % 0x40 - 0x80) = n := by omega
  rw [utf8DecodeStep, if_neg ha, if_neg hb, if_neg hc, if_pos hd, utf8DecodeThree,
    if_pos he, hf, if_pos ⟨h1, hs⟩]

/-- Decoding one step over an encoded four-byte sequence recovers the scalar. -/
theorem utf8DecodeStep_four {n : Nat} (h1 : 0x10000 ≤ n) (h2 : n < 0x110000)
    (rest : List Byte) :
    utf8DecodeStep (0xf0 + n / 0x40000)
      ((0x80 + n / 0x1000 % 0x40) :: (0x80 + n / 0x40 % 0x40) :: (0x80 + n % 0x40) :: rest)
      = some (n, rest) := by
  have ha : ¬ (0xf0 + n / 0x40000 < 0x80) := by omega
  have hb : ¬ (0xf0 + n / 0x40000 < 0xc2) := by omega
  have hc : ¬ (0xf0 + n / 0x40000 < 0xe0) := by omega
  have hd : ¬ (0xf0 + n / 0x40000 < 0xf0) := by omega
  have he : 0xf0 + n / 0x40000 < 0xf5 := by omega
  have hf : (0x80 ≤ 0x80 + n / 0x1000 % 0x40 ∧ 0x80 + n / 0x1000 % 0x40 < 0xc0)
      ∧ (0x80 ≤ 0x80 + n / 0x40 % 0x40 ∧ 0x80 + n / 0x40 % 0x40 < 0xc0)
      ∧ (0x80 ≤ 0x80 + n % 0x40 ∧ 0x80 + n % 0x40 < 0xc0) := by omega
  have hg : (0xf0 + n / 0x40000 - 0xf0) * 0x40000 + (0x80 + n / 0x1000 % 0x40 - 0x80) * 0x1000
      + (0x80 + n / 0x40 % 0x40 - 0x80) * 0x40 + (0x80 + n % 0x40 - 0x80) = n := by omega
  rw [utf8DecodeStep, if_neg ha, if_neg hb, if_neg hc, if_neg hd, if_pos he, utf8DecodeFour,
    if_pos hf, hg, if_pos ⟨h1, h2⟩]

/-- One loop iteration consumes exactly one encoded character. -/
theorem utf8DecodeLoop_encodeChar (c : Char) (rest : List Byte) (fuel : Nat) :
    utf8DecodeLoop (fuel + 1) (utf8EncodeChar c ++ rest) =
      (utf8DecodeLoop fuel rest).map (fun s => c :: s) := by
  have hofn : Char.ofNat c.toNat = c := Char.ofNat_toNat c
  have hv := char_toNat_valid c
  by_cases h1 : c.toNat < 0x80
  · rw [utf8EncodeChar, if_pos h1, List.cons_append, List.nil_append, utf8DecodeLoop,
      utf8DecodeStep, if_pos h1]
    show (utf8DecodeLoop fuel rest).map (fun s => Char.ofNat c.toNat :: s) = _
    rw [hofn]
  · by_cases h2 : c.toNat < 0x800
    · rw [utf8EncodeChar, if_neg h1, if_pos h2, List.cons_append, List.cons_append,
        List.nil_append, utf8DecodeLoop, utf8DecodeStep_two (by omega) h2]
      show (utf8DecodeLoop fuel rest).map (fun s => Char.ofNat c.toNat :: s) = _
      rw [hofn]
    · by_cases h3 : c.toNat < 0x10000
      · have hs : ¬ (0xd800 ≤ c.toNat ∧ c.toNat < 0xe000) := by omega
        rw [utf8EncodeChar, if_neg h1, if_neg h2, if_pos h3, List.cons_append,
          List.cons_append, List.cons_append, List.nil_append, utf8DecodeLoop,
          utf8DecodeStep_three (by omega) h3 hs]
        show (utf8DecodeLoop fuel rest).map (fun s => Char.ofNat c.toNat :: s) = _
        rw [hofn]
      · have h4 : c.toNat < 0x110000 := by omega
        rw [utf8EncodeChar, if_neg h1, if_neg h2, if_neg h3, List.cons_append,
          List.cons_append, List.cons_append, List.cons_append, List.nil_append,
          utf8DecodeLoop, utf8DecodeStep_four (by omega) h4]
        show (utf8DecodeLoop fuel rest).map (fun s => Char.ofNat c.toNat :: s) = _
        rw [hofn]

/-- `utf8Encode` distributes over append. -/
theorem utf8Encode_append (s t : List Char) :
    utf8Encode (s ++ t) = utf8Encode s ++ utf8Encode t := by
  simp [utf8Encode]

/-- The decode loop undoes `utf8Encode` on a prefix, spending one unit of
fuel per encoded character. -/
theorem utf8DecodeLoop_encode_append (s : List Char) (rest : List Byte) (fuel : Nat) :
    utf8DecodeLoop (s.length + fuel) (utf8Encode s ++ rest) =
      (utf8DecodeLoop fuel rest).map (fun t => s ++ t) := by
  induction s with
  | nil =>
    simp only [utf8Encode, List.map_nil, List.flatten_nil, List.length_nil, Nat.zero_add,
      List.nil_append]
    cases h : utf8DecodeLoop fuel rest <;> simp
  | cons c s ih =>
    have henc : utf8Encode (c :: s) = utf8EncodeChar c ++ utf8Encode s := by
      simp [utf8Encode]
    have hlen : (c :: s).length + fuel = (s.length + fuel) + 1 := by
      simp [List.length_cons]; omega
    rw [henc, hlen, List.append_assoc, utf8DecodeLoop_encodeChar, ih]
    cases h : utf8DecodeLoop fuel rest <;> simp

/-- Decoding an encoded string gives the string back: the embedded UTF-8
codec is lossless, which is what guarantees `decode` never rejects a
payload produced by `build`. -/
theorem utf8Decode_utf8Encode (s : List Char) : utf8Decode (utf8Encode s) = some s := by
  have hle : s.length ≤ (utf8Encode s).length := by
    induction s with
    | nil => simp [utf8Encode]
    | cons c s ih =>
      have henc : utf8Encode (c :: s) = utf8EncodeChar c ++ utf8Encode s := by
        simp [utf8Encode]
      have hpos : 0 < (utf8EncodeChar c).length := by
        rw [utf8EncodeChar]
        split_ifs <;> simp
      rw [henc]
      simp only [List.length_append, List.length_cons]
      omega
  have hsplit : (utf8Encode s).length = s.length + ((utf8Encode s).length - s.length) := by
    omega
  rw [utf8Decode, hsplit, ← List.append_nil (utf8Encode s), utf8DecodeLoop_encode_append]
  simp [utf8DecodeLoop]

/-! ### Lemmas about the pong payload string codec -/

/-- `split` always yields at least one part. -/
theorem splitOn_ne_nil (s : List Char) : s.splitOn ';' ≠ [] := by
  rw [List.splitOn]
  exact List.splitOnP_ne_nil _ _

/-- Hence the `Empty pong data string` branch of `from_string` is dead. -/
theorem splitOn_isEmpty_eq_false (s : List Char) : (s.splitOn ';').isEmpty = false := by
  cases h : s.splitOn ';' with
  | nil => exact absurd h (splitOn_ne_nil s)
  | cons a l => rfl

/-- `from_string` succeeds on every input string. -/
theorem fromString_isOk (s : List Char) : ∃ q, PongData.fromString s = .ok q := by
  rw [PongData.fromString]
  simp only [splitOn_isEmpty_eq_false, Bool.false_eq_true, if_false]
  exact ⟨_, rfl⟩

/-- The encoded payload is the 13-part intercalation: the 12 fields plus a
final empty chunk contributed by the trailing semicolon. -/
theorem intoString_eq_intercalate (p : PongData) :
    p.intoString = List.intercalate [';'] (p.fields ++ [[]]) := by
  simp only [PongData.intoString, PongData.fields, List.intercalate, List.cons_append,
    List.nil_append, List.intersperse, List.flatten]
  simp [List.append_assoc]

/-- Splitting an encoded payload whose fields are semicolon-free recovers
the 12 fields followed by one empty part. -/
theorem splitOn_intoString (p : PongData) (h : ∀ f ∈ p.fields, ';' ∉ f) :
    p.intoString.splitOn ';' = p.fields ++ [[]] := by
  rw [intoString_eq_intercalate]
  refine List.splitOn_intercalate (p.fields ++ [[]]) ';' ?_ ?_
  · intro l hl
    rcases List.mem_append.1 hl with hl | hl
    · exact h l hl
    · simp at hl; subst hl; simp
  · simp

/-- Payload-level roundtrip: `from_string` undoes `Into<String>` when no
field contains a semicolon. -/
theorem fromString_intoString (p : PongData) (h : ∀ f ∈ p.fields, ';' ∉ f) :
    PongData.fromString p.intoString = .ok p := by
  rw [PongData.fromString]
  rw [splitOn_intoString p h]
  simp [PongData.fields, List.getD]

/-! ### Master lemmas for the byte-level decoders -/

/-- `copy_to_slice` on a long-enough cursor yields the prefix and advances. -/
theorem copyToSlice_eq_some {n : Nat} {data : List Byte} (h : n ≤ data.length) :
    copyToSlice n data = some (data.take n, data.drop n) := by
  simp [copyToSlice, h]

/-- A buffer of at least 33 bytes whose first byte is the ping id decodes
successfully, and the decoded fields are the literal byte slices — the 16
bytes at offsets 9..24 are copied unchecked. -/
theorem pingFromBytes_success (data : List Byte) (h : 33 ≤ data.length)
    (hid : data.headD 0 = UNCONNECTED_PING_ID) :
    UnconnectedPing.fromBytes data =
      some (.ok { ping_time := (data.drop 1).take 8, magic := (data.drop 9).take 16,
                  client_id := (data.drop 25).take 8 }) := by
  cases data with
  | nil => simp at h
  | cons b rest =>
    have hb : b = UNCONNECTED_PING_ID := by simpa using hid
    subst hb
    have hr : 32 ≤ rest.length := by simp at h; omega
    have hlen : ¬ ((UNCONNECTED_PING_ID :: rest).length < 25) := by simp; omega
    have h1 : copyToSlice 8 rest = some (rest.take 8, rest.drop 8) :=
      copyToSlice_eq_some (by omega)
    have h2 : copyToSlice 16 (rest.drop 8)
        = some ((rest.drop 8).take 16, (rest.drop 8).drop 16) :=
      copyToSlice_eq_some (by simp; omega)
    have h3 : copyToSlice 8 ((rest.drop 8).drop 16)
        = some (((rest.drop 8).drop 16).take 8, ((rest.drop 8).drop 16).drop 8) :=
      copyToSlice_eq_some (by simp; omega)
    rw [UnconnectedPing.fromBytes, if_neg hlen]
    simp only [getU8, h1, h2, h3, ne_eq, not_true_eq_false, if_false, ite_false,
      Bool.false_eq_true]
    simp [List.drop_drop]

/-- The byte-level pong decoder, rewritten into its decision normal form:
the four failure conditions in source order, and on success the literal
byte slices of the header fields — the 16 bytes at offsets 17..32 are
copied unchecked.  The `Not enough data for pong length` branch is dead:
a buffer of at least 35 bytes always has two length bytes. -/
theorem pongFromBytes_eq (data : List Byte) :
    UnconnectedPong.fromBytes data =
      if data.length < 35 then some (Except.error "Data too short for UnconnectedPong packet")
      else if data.headD 0 ≠ UNCONNECTED_PONG_ID then
        some (Except.error "Invalid packet ID for UnconnectedPong")
      else if data.length < 35 + pongDeclaredLen data then
        some (Except.error "Not enough data for pong content")
      else
        match utf8Decode ((data.drop 35).take (pongDeclaredLen data)) with
        | none => some (Except.error "Invalid UTF-8 in pong data")
        | some s =>
          match PongData.fromString s with
          | Except.error e => some (Except.error e)
          | Except.ok pong =>
            some (Except.ok { ping_time := (data.drop 1).take 8,
                              server_guid := (data.drop 9).take 8,
                              magic := (data.drop 17).take 16, pong := pong }) := by
  by_cases hlen : data.length < 35
  · rw [UnconnectedPong.fromBytes, if_pos hlen, if_pos hlen]
  · rw [if_neg hlen]
    cases data with
    | nil => simp at hlen
    | cons b rest =>
      have hr : 34 ≤ rest.length := by simp at hlen; omega
      by_cases hb : b = UNCONNECTED_PONG_ID
      · subst hb
        have hhead : ¬ ((UNCONNECTED_PONG_ID :: rest).headD 0 ≠ UNCONNECTED_PONG_ID) := by simp
        rw [if_neg hhead]
        have h1 : copyToSlice 8 rest = some (rest.take 8, rest.drop 8) :=
          copyToSlice_eq_some (by omega)
        have h2 : copyToSlice 8 (rest.drop 8)
            = some ((rest.drop 8).take 8, (rest.drop 8).drop 8) :=
          copyToSlice_eq_some (by simp; omega)
        have h3 : copyToSlice 16 (rest.drop 16)
            = some ((rest.drop 16).take 16, (rest.drop 16).drop 16) :=
          copyToSlice_eq_some (by simp; omega)
        have hdd8 : (rest.drop 8).drop 8 = rest.drop 16 := by rw [List.drop_drop]
        have hdd16 : (rest.drop 16).drop 16 = rest.drop 32 := by rw [List.drop_drop]
        have h32 : 2 ≤ (rest.drop 32).length := by simp; omega
        obtain ⟨b0, b1, r5, hshape⟩ : ∃ b0 b1 r5, rest.drop 32 = b0 :: b1 :: r5 := by
          cases hd : rest.drop 32 with
          | nil => rw [hd] at h32; simp at h32
          | cons x t =>
            cases ht : t with
            | nil => rw [hd, ht] at h32; simp at h32
            | cons y u => exact ⟨x, y, u, by rw [ht] at hd⟩
        have hdecl : pongDeclaredLen (UNCONNECTED_PONG_ID :: rest) = b0 * 256 + b1 := by
          rw [pongDeclaredLen, show (UNCONNECTED_PONG_ID :: rest).drop 33 = rest.drop 32 from rfl,
            hshape]
        have hr5len : r5.length + 34 = rest.length := by
          have h := congrArg List.length hshape
          rw [List.length_drop] at h
          simp only [List.length_cons] at h
          omega
        have hr5 : (UNCONNECTED_PONG_ID :: rest).drop 35 = r5 := by
          have h : (UNCONNECTED_PONG_ID :: rest).drop 35 = (rest.drop 32).drop 2 := by
            rw [List.drop_drop]
            exact rfl
          rw [h, hshape]
          exact rfl
        rw [UnconnectedPong.fromBytes, if_neg (by simpa using hlen)]
        simp only [getU8, h1, h2, h3, hdd8, hdd16, hshape, ne_eq, not_true_eq_false,
          if_false, ite_false, Bool.false_eq_true]
        rw [if_neg (show ¬ ((b0 :: b1 :: r5).length < 2) from by simp)]
        simp only [getU16]
        rw [hdecl, hr5]
        have hcondiff : (r5.length < b0 * 256 + b1)
            ↔ ((UNCONNECTED_PONG_ID :: rest).length < 35 + (b0 * 256 + b1)) := by
          simp only [List.length_cons]
          omega
        by_cases hc : r5.length < b0 * 256 + b1
        · rw [if_pos hc, if_pos (hcondiff.mp hc)]
        · rw [if_neg hc, if_neg (fun hx => hc (hcondiff.mpr hx))]
          rfl
      · have hhead : (b :: rest).headD 0 ≠ UNCONNECTED_PONG_ID := by simpa using hb
        rw [if_pos hhead, UnconnectedPong.fromBytes,
          if_neg (by simpa using hlen)]
        simp only [getU8]
        rw [if_pos (by simpa using hb)]



/-- Claim C1 (code_bug): the claim says every buffer of at least 25 bytes whose
first byte is 0x01 decodes successfully without panicking.  The repository's own
unit-test packet — 25 bytes, leading byte 0x01 — makes `from_bytes` panic
(`none`) in the `copy_to_slice` that reads the 8 client_id bytes, because the
length guard checks 25 where the packet actually needs 33 bytes. -/
theorem c1_ping_decode_panics_on_own_test_packet :
    25 ≤ c1RealPacket.length ∧ c1RealPacket.headD 0 = UNCONNECTED_PING_ID ∧
      UnconnectedPing.fromBytes c1RealPacket = none := by
  refine ⟨by decide, by decide, by decide⟩

/-- Claim C2 (confirmed): over any sequence of successfully received datagrams
and with no shutdown signal delivered, the listening-socket reader loop forwards
at most one datagram into the Router's mailbox and then exits its read loop —
every arm of the loop body ends in `break`. -/
theorem c2_reader_loop (evs : List PipeEvent)
    (hall : ∀ e ∈ evs, ∃ d a, e = PipeEvent.socketRead (ReadResult.recvOk d a)) :
    (socketPipeToRouter evs).1.length ≤ 1 ∧
      (evs ≠ [] → (socketPipeToRouter evs).2 = true) := by
  cases evs with
  | nil => simp [socketPipeToRouter]
  | cons e rest =>
    obtain ⟨d, a, rfl⟩ := hall e (List.mem_cons_self e rest)
    simp [socketPipeToRouter, socketPipeIteration]

/-- Witness for C2 at a two-datagram event list. -/
theorem c2_witness :
    (socketPipeToRouter [PipeEvent.socketRead (ReadResult.recvOk [1, 2] 5),
        PipeEvent.socketRead (ReadResult.recvOk [3] 6)]).1.length ≤ 1 ∧
      ([PipeEvent.socketRead (ReadResult.recvOk [1, 2] 5),
        PipeEvent.socketRead (ReadResult.recvOk [3] 6)] ≠ ([] : List PipeEvent) →
        (socketPipeToRouter [PipeEvent.socketRead (ReadResult.recvOk [1, 2] 5),
          PipeEvent.socketRead (ReadResult.recvOk [3] 6)]).2 = true) :=
  c2_reader_loop _ (fun e he => by
    rcases List.mem_cons.1 he with rfl | he
    · exact ⟨[1, 2], 5, rfl⟩
    · rcases List.mem_cons.1 he with rfl | he
      · exact ⟨[3], 6, rfl⟩
      · cases he)

/-- Counterexample to claim C3: in a concrete start-up/shutdown trace, the
per-client task for client 7 is spawned but is not among the tasks the shutdown
sequence joins, and its read loop does not exit without a socket error. -/
theorem c3_counterexample :
    TaskId.perClientTask 7 ∈ (ProxySystem.run c3Trace).spawnedTasks ∧
    TaskId.perClientTask 7 ∉ (ProxySystem.run c3Trace).joinedTasks ∧
    proxyRemoteReadLoopExits (List.replicate 3 (UpstreamEvent.recvOk [0x42])) = false := by
  refine ⟨by decide, by decide, by decide⟩

theorem c3_run_aux (ops : List ProxyOp) (st : ProxySystem) (a : Nat)
    (hreg : TaskId.perClientTask a ∉ st.registeredTasks)
    (hjoin : TaskId.perClientTask a ∉ st.joinedTasks) :
    TaskId.perClientTask a ∉ (ops.foldl ProxySystem.step st).registeredTasks ∧
    TaskId.perClientTask a ∉ (ops.foldl ProxySystem.step st).joinedTasks := by
  induction ops generalizing st with
  | nil => exact ⟨hreg, hjoin⟩
  | cons op rest ih =>
    rw [List.foldl_cons]
    apply ih
    · cases op with
      | startRouter => simpa [ProxySystem.step] using hreg
      | spawnSocketReader n => simp [ProxySystem.step, hreg]
      | packetFromClient b =>
        by_cases hb : b ∈ st.clientMap <;> simp [ProxySystem.step, hb] <;> exact hreg
      | runHandleShutdown => simp [ProxySystem.step]
    · cases op with
      | startRouter => simpa [ProxySystem.step] using hjoin
      | spawnSocketReader n => simpa [ProxySystem.step] using hjoin
      | packetFromClient b =>
        by_cases hb : b ∈ st.clientMap <;> simp [ProxySystem.step, hb] <;> exact hjoin
      | runHandleShutdown => simp [ProxySystem.step, hjoin, hreg]

/-- Claim C3 (corrected): per-client tasks spawned by the Router are detached —
in every trace they are never registered in the proxy instance's task list and
never joined by the shutdown sequence, and their read loop only exits on a
socket error, so they remain running after shutdown completes. -/
theorem c3_amended_thm (ops : List ProxyOp) (a : Nat) (evs : List UpstreamEvent)
    (herr : ∀ e ∈ evs, e ≠ UpstreamEvent.recvErr) :
    TaskId.perClientTask a ∉ (ProxySystem.run ops).joinedTasks ∧
    TaskId.perClientTask a ∉ (ProxySystem.run ops).registeredTasks ∧
    proxyRemoteReadLoopExits evs = false := by
  obtain ⟨h1, h2⟩ := c3_run_aux ops ProxySystem.init a (by simp [ProxySystem.init])
    (by simp [ProxySystem.init])
  refine ⟨h2, h1, ?_⟩
  induction evs with
  | nil => rfl
  | cons e rest ih =>
    cases e with
    | recvOk d =>
      rw [proxyRemoteReadLoopExits]
      exact ih (fun x hx => herr x (List.mem_cons_of_mem _ hx))
    | recvErr => exact absurd rfl (herr _ (List.mem_cons_self _ _))

/-- Witness for the amended C3 at a concrete trace and event list. -/
theorem c3_amended_witness :
    TaskId.perClientTask 9 ∉ (ProxySystem.run c3Trace).joinedTasks ∧
    TaskId.perClientTask 9 ∉ (ProxySystem.run c3Trace).registeredTasks ∧
    proxyRemoteReadLoopExits [UpstreamEvent.recvOk [1]] = false :=
  c3_amended_thm c3Trace 9 [UpstreamEvent.recvOk [1]] (by decide)

/-- Claim C4 (code_bug): `listen` sets the `running` flag before resolving the
remote address and never resets it on failure; after a listen that failed with
InvalidAddress the flag is still set, so a subsequent listen reports
AlreadyRunning, contradicting the claim that a failed attempt does not cause a
later listen() to report AlreadyRunning. -/
theorem c4_failed_listen_then_already_running :
    (ProxyInstance.listen { running := false }
        { resolveOk := false, bindBroadcastOk := true, bindProxyOk := true }).2
      = Except.error (PhantomError.InvalidAddress "resolution error") ∧
    (ProxyInstance.listen { running := false }
        { resolveOk := false, bindBroadcastOk := true, bindProxyOk := true }).1.running = true ∧
    (ProxyInstance.listen
        (ProxyInstance.listen { running := false }
          { resolveOk := false, bindBroadcastOk := true, bindProxyOk := true }).1
        { resolveOk := true, bindBroadcastOk := true, bindProxyOk := true }).2
      = Except.error PhantomError.AlreadyRunning := by
  refine ⟨by decide, by decide, by decide⟩

/-- Counterexample to claim C5: decoding the literal 13-field payload,
rewriting port4 to 25565 and re-encoding does NOT yield the original payload
with only port4 changed — the extra 13th field `0` is dropped. -/
theorem c5_counterexample :
    (PongData.fromString c5Payload).map
        (fun p => PongData.intoString { p with port4 := "25565".data })
      ≠ Except.ok c5ExpectedIfOnlyPort4Changed := by decide

/-- Claim C5 (corrected): decoding the literal pong payload, overwriting port4
with 25565 and re-encoding yields the payload with port4 replaced AND the
trailing 13th field `0` dropped (PongData keeps only 12 fields). -/
theorem c5_amended_thm :
    (PongData.fromString c5Payload).map
        (fun p => PongData.intoString { p with port4 := "25565".data })
      = Except.ok c5Actual := by decide

/-- Counterexample to claim C7: the encoded ping is 33 bytes, not the 25 the
claim states (1 id + 8 ping_time + 16 magic + 8 client_id). -/
theorem c7_counterexample :
    ((UnconnectedPing.new (List.replicate 8 0) (List.replicate 8 0)).build).length ≠ 25 := by
  decide

/-- Claim C7 (corrected): for every ping whose fields have their wire widths
and whose magic is the fixed constant, `build` produces exactly 33 bytes laid
out as id 0x01, ping_time (8), the 16-byte magic constant, client_id (8). -/
theorem c7_amended_thm (p : UnconnectedPing) (h1 : p.ping_time.length = 8)
    (h2 : p.magic = MAGIC) (h3 : p.client_id.length = 8) :
    p.build = UNCONNECTED_PING_ID :: (p.ping_time ++ (MAGIC ++ p.client_id)) ∧
    p.build.length = 33 := by
  constructor
  · rw [UnconnectedPing.build, h2]
  · simp [UnconnectedPing.build, h1, h2, h3, MAGIC]

/-- Witness for the amended C7 at a concrete ping. -/
theorem c7_amended_witness :
    (UnconnectedPing.new (List.replicate 8 1) (List.replicate 8 2)).build
        = UNCONNECTED_PING_ID :: ((UnconnectedPing.new (List.replicate 8 1)
            (List.replicate 8 2)).ping_time
          ++ (MAGIC ++ (UnconnectedPing.new (List.replicate 8 1) (List.replicate 8 2)).client_id)) ∧
    (UnconnectedPing.new (List.replicate 8 1) (List.replicate 8 2)).build.length = 33 :=
  c7_amended_thm _ (by decide) (by decide) (by decide)

theorem pongFromBytes_build (p : UnconnectedPong) (h1 : p.ping_time.length = 8)
    (h2 : p.server_guid.length = 8) (h3 : p.magic.length = 16) :
    UnconnectedPong.fromBytes p.build =
      match utf8Decode ((utf8Encode p.pong.intoString).take
          ((utf8Encode p.pong.intoString).length % 65536)) with
      | none => some (Except.error "Invalid UTF-8 in pong data")
      | some s =>
        match PongData.fromString s with
        | Except.error e => some (Except.error e)
        | Except.ok pong =>
          some (Except.ok { ping_time := p.ping_time, server_guid := p.server_guid,
                            magic := p.magic, pong := pong }) := by
  set pay := utf8Encode p.pong.intoString with hpay
  set n := pay.length with hn
  have hbuild : p.build = UNCONNECTED_PONG_ID ::
      (p.ping_time ++ (p.server_guid ++ (p.magic ++
        (n % 65536 / 256 :: (n % 256 :: pay))))) := by
    rw [UnconnectedPong.build, putU16]
    simp [List.cons_append, List.nil_append]
  have hlen : p.build.length = 35 + n := by
    rw [hbuild]
    simp [h1, h2, h3]
    omega
  have hd1 : p.build.drop 1 = p.ping_time ++ (p.server_guid ++ (p.magic ++
      (n % 65536 / 256 :: (n % 256 :: pay)))) := by
    rw [hbuild]
    rfl
  have hd9 : p.build.drop 9 = p.server_guid ++ (p.magic ++
      (n % 65536 / 256 :: (n % 256 :: pay))) := by
    have e : (9:Nat) = p.ping_time.length + 1 := by omega
    calc p.build.drop 9 = (p.build.drop 1).drop 8 := by rw [List.drop_drop]
    _ = _ := by rw [hd1, show (8:Nat) = p.ping_time.length + 0 from by omega,
          List.drop_append, List.drop_zero]
  have hd17 : p.build.drop 17 = p.magic ++ (n % 65536 / 256 :: (n % 256 :: pay)) := by
    calc p.build.drop 17 = (p.build.drop 9).drop 8 := by rw [List.drop_drop]
    _ = _ := by rw [hd9, show (8:Nat) = p.server_guid.length + 0 from by omega,
          List.drop_append, List.drop_zero]
  have hd33 : p.build.drop 33 = n % 65536 / 256 :: (n % 256 :: pay) := by
    calc p.build.drop 33 = (p.build.drop 17).drop 16 := by rw [List.drop_drop]
    _ = _ := by rw [hd17, show (16:Nat) = p.magic.length + 0 from by omega,
          List.drop_append, List.drop_zero]
  have hd35 : p.build.drop 35 = pay := by
    calc p.build.drop 35 = (p.build.drop 33).drop 2 := by rw [List.drop_drop]
    _ = _ := by rw [hd33]; rfl
  have hdecl : pongDeclaredLen p.build = n % 65536 := by
    rw [pongDeclaredLen, hd33]
    show n % 65536 / 256 * 256 + n % 256 = n % 65536
    omega
  have ht1 : (p.build.drop 1).take 8 = p.ping_time := by
    rw [hd1, List.take_left' h1]
  have ht9 : (p.build.drop 9).take 8 = p.server_guid := by
    rw [hd9, List.take_left' h2]
  have ht17 : (p.build.drop 17).take 16 = p.magic := by
    rw [hd17, List.take_left' h3]
  have hhead : p.build.headD 0 = UNCONNECTED_PONG_ID := by rw [hbuild]; rfl
  rw [pongFromBytes_eq, if_neg (by omega), if_neg (by rw [hhead]; simp),
    if_neg (by rw [hdecl, hlen]; have := Nat.mod_le n 65536; omega),
    hdecl, hd35, ht1, ht9, ht17]

theorem mem_of_mem_intersperse {α : Type u} {sep x : α} {xs : List α}
    (h : x ∈ xs.intersperse sep) : x = sep ∨ x ∈ xs := by
  induction xs with
  | nil => simp [List.intersperse] at h
  | cons a t ih =>
    cases t with
    | nil =>
      simp only [List.intersperse_singleton] at h
      right; exact h
    | cons b u =>
      rw [List.intersperse_cons_cons] at h
      rcases List.mem_cons.1 h with rfl | h
      · right; exact List.mem_cons_self _ _
      · rcases List.mem_cons.1 h with rfl | h
        · left; rfl
        · rcases ih h with rfl | h
          · left; rfl
          · right; exact List.mem_cons_of_mem _ h

theorem mem_intoString {p : PongData} {c : Char} (hc : c ∈ p.intoString) :
    c = ';' ∨ ∃ f ∈ p.fields, c ∈ f := by
  rw [intoString_eq_intercalate, List.intercalate] at hc
  rw [List.mem_flatten] at hc
  obtain ⟨l, hl, hcl⟩ := hc
  rcases mem_of_mem_intersperse hl with rfl | hl
  · left; simpa using hcl
  · rcases List.mem_append.1 hl with hl | hl
    · right; exact ⟨l, hl, hcl⟩
    · simp at hl; subst hl; simp at hcl

theorem utf8Encode_length_of_ascii (s : List Char) (h : ∀ c ∈ s, c.toNat < 0x80) :
    (utf8Encode s).length = s.length := by
  induction s with
  | nil => simp [utf8Encode]
  | cons c t ih =>
    have hc : utf8EncodeChar c = [c.toNat] := by
      unfold utf8EncodeChar
      rw [if_pos (h c (List.mem_cons_self c t))]
    have ht := ih (fun x hx => h x (List.mem_cons_of_mem _ hx))
    simp only [utf8Encode, List.map_cons, List.flatten_cons, List.length_append, hc]
    simp only [utf8Encode] at ht
    simp [ht]
    omega

theorem intoString_length_onlyMotd (m : List Char) :
    (onlyMotdPong m).intoString.length = m.length + 12 := by
  simp only [PongData.intoString, PongData.fields, onlyMotdPong, List.intercalate,
    List.intersperse_cons_cons, List.intersperse_singleton, List.flatten_cons,
    List.flatten_nil, List.length_append, List.length_cons, List.length_nil,
    List.nil_append, List.append_nil]
  omega

theorem payload_length_onlyMotd (m : List Char) (hm : ∀ c ∈ m, c.toNat < 0x80) :
    (utf8Encode (onlyMotdPong m).intoString).length = m.length + 12 := by
  rw [utf8Encode_length_of_ascii, intoString_length_onlyMotd]
  intro c hc
  rcases mem_intoString hc with rfl | ⟨f, hf, hcf⟩
  · decide
  · simp only [PongData.fields, onlyMotdPong, List.mem_cons, List.not_mem_nil,
      or_false] at hf
    rcases hf with rfl | rfl | rfl | rfl | rfl | rfl | rfl | rfl | rfl | rfl | rfl | rfl
    all_goals first
      | exact absurd hcf (List.not_mem_nil c)
      | exact hm c hcf

theorem fromString_nil :
    PongData.fromString [] = Except.ok { PongData.default with edition := [] } := by decide

/-- Claim C6 (corrected): for every PongData whose 12 fields contain no `;`
AND whose UTF-8 payload is at most 65535 bytes, encoding a pong carrying it and
decoding the bytes yields the packet back unchanged. -/
theorem c6_amended_thm (x : PongData) (hsemi : ∀ f ∈ x.fields, ';' ∉ f)
    (hlen : (utf8Encode x.intoString).length ≤ 65535) :
    UnconnectedPong.fromBytes (pongCarrying x).build
      = some (Except.ok (pongCarrying x)) := by
  rw [pongFromBytes_build _ (by simp [pongCarrying, UnconnectedPong.new])
    (by simp [pongCarrying, UnconnectedPong.new])
    (by simp [pongCarrying, UnconnectedPong.new, MAGIC])]
  have hp : (pongCarrying x).pong = x := rfl
  rw [hp, Nat.mod_eq_of_lt (by omega), List.take_length, utf8Decode_utf8Encode]
  simp only [fromString_intoString x hsemi]
  rfl

/-- Witness for the amended C6 at the default PongData. -/
theorem c6_amended_witness :
    UnconnectedPong.fromBytes (pongCarrying PongData.default).build
      = some (Except.ok (pongCarrying PongData.default)) :=
  c6_amended_thm PongData.default (by decide) (by decide)


/-- Counterexample to claim C6: a PongData whose fields contain no `;` but
whose encoded payload is 65536 bytes long round-trips incorrectly — the length
prefix is written as `len as u16 = 0`, the decoder reads an empty payload, and
the decoded PongData differs from the original. -/
theorem c6_counterexample :
    (∀ f ∈ bigPongData.fields, ';' ∉ f) ∧
    UnconnectedPong.fromBytes (pongCarrying bigPongData).build
      ≠ some (Except.ok (pongCarrying bigPongData)) := by
  rw [show bigPongData = onlyMotdPong (List.replicate 65524 'a') from rfl]
  constructor
  · intro f hf
    simp only [PongData.fields, onlyMotdPong, List.mem_cons, List.not_mem_nil,
      or_false] at hf
    rcases hf with rfl | rfl | rfl | rfl | rfl | rfl | rfl | rfl | rfl | rfl | rfl | rfl
    all_goals first
      | exact List.not_mem_nil ';'
      | (intro hsc
         have h := List.eq_of_mem_replicate hsc
         exact absurd h (by decide))
  · have hm : ∀ c ∈ List.replicate 65524 'a', c.toNat < 0x80 := by
      intro c hc
      rw [List.eq_of_mem_replicate hc]
      decide
    have hpaylen :
        (utf8Encode (pongCarrying (onlyMotdPong (List.replicate 65524 'a'))).pong.intoString).length
          = 65536 := by
      show (utf8Encode (onlyMotdPong (List.replicate 65524 'a')).intoString).length = 65536
      rw [payload_length_onlyMotd _ hm, List.length_replicate]
    rw [pongFromBytes_build (pongCarrying (onlyMotdPong (List.replicate 65524 'a')))
      (by decide) (by decide) (by decide), hpaylen,
      show (65536 % 65536 : Nat) = 0 from rfl, List.take_zero]
    intro heq
    rw [show utf8Decode ([] : List Byte) = some [] from rfl] at heq
    simp only [fromString_nil] at heq
    have hA := Except.ok.inj (Option.some.inj heq)
    have hm2 := congrArg (fun u : UnconnectedPong => u.pong.motd.length) hA
    simp only [pongCarrying, onlyMotdPong, UnconnectedPong.new] at hm2
    rw [List.length_replicate] at hm2
    exact absurd hm2 (by decide)


/-- Counterexample to claim C9: the default motd in the code is
"phantom §cServer offline" (with the `§c` colour code), not the
"phantom Server offline" the claim lists. -/
theorem c9_counterexample : PongData.default.motd ≠ "phantom Server offline".data := by decide

/-- Claim C9 (corrected): the fresh-pong defaults are exactly the listed
values with motd "phantom §cServer offline", and when a decoded payload carries
fewer than 12 fields every absent field keeps its default value. -/
theorem c9_amended_thm :
    PongData.default =
      { edition := "MCPE".data, motd := "phantom §cServer offline".data,
        protocol_version := "800".data, version := "1.31.83".data, players := "0".data,
        max_players := "1".data, server_id := "13253860892328930865".data,
        sub_motd := "Server Offline".data, game_mode := "Creative".data,
        game_mode_numeric := "1".data, port4 := "19132".data, port6 := "19132".data } ∧
    ∀ (s : List Char) (p : PongData), PongData.fromString s = Except.ok p →
      (((s.splitOn ';').length ≤ 0 → p.edition = PongData.default.edition) ∧
       ((s.splitOn ';').length ≤ 1 → p.motd = PongData.default.motd) ∧
       ((s.splitOn ';').length ≤ 2 → p.protocol_version = PongData.default.protocol_version) ∧
       ((s.splitOn ';').length ≤ 3 → p.version = PongData.default.version) ∧
       ((s.splitOn ';').length ≤ 4 → p.players = PongData.default.players) ∧
       ((s.splitOn ';').length ≤ 5 → p.max_players = PongData.default.max_players) ∧
       ((s.splitOn ';').length ≤ 6 → p.server_id = PongData.default.server_id) ∧
       ((s.splitOn ';').length ≤ 7 → p.sub_motd = PongData.default.sub_motd) ∧
       ((s.splitOn ';').length ≤ 8 → p.game_mode = PongData.default.game_mode) ∧
       ((s.splitOn ';').length ≤ 9 → p.game_mode_numeric = PongData.default.game_mode_numeric) ∧
       ((s.splitOn ';').length ≤ 10 → p.port4 = PongData.default.port4) ∧
       ((s.splitOn ';').length ≤ 11 → p.port6 = PongData.default.port6)) := by
  refine ⟨rfl, ?_⟩
  intro s p hp
  rw [PongData.fromString] at hp
  simp only [splitOn_isEmpty_eq_false, Bool.false_eq_true, if_false] at hp
  rw [Except.ok.injEq] at hp
  subst hp
  refine ⟨?_, ?_, ?_, ?_, ?_, ?_, ?_, ?_, ?_, ?_, ?_, ?_⟩
  · intro hlen
    simp only [apply_ite PongData.edition, ite_self,
      show ¬ (0 < (s.splitOn ';').length) from by omega, if_false, ite_false]
  · intro hlen
    simp only [apply_ite PongData.motd, ite_self,
      show ¬ (1 < (s.splitOn ';').length) from by omega, if_false, ite_false]
  · intro hlen
    simp only [apply_ite PongData.protocol_version, ite_self,
      show ¬ (2 < (s.splitOn ';').length) from by omega, if_false, ite_false]
  · intro hlen
    simp only [apply_ite PongData.version, ite_self,
      show ¬ (3 < (s.splitOn ';').length) from by omega, if_false, ite_false]
  · intro hlen
    simp only [apply_ite PongData.players, ite_self,
      show ¬ (4 < (s.splitOn ';').length) from by omega, if_false, ite_false]
  · intro hlen
    simp only [apply_ite PongData.max_players, ite_self,
      show ¬ (5 < (s.splitOn ';').length) from by omega, if_false, ite_false]
  · intro hlen
    simp only [apply_ite PongData.server_id, ite_self,
      show ¬ (6 < (s.splitOn ';').length) from by omega, if_false, ite_false]
  · intro hlen
    simp only [apply_ite PongData.sub_motd, ite_self,
      show ¬ (7 < (s.splitOn ';').length) from by omega, if_false, ite_false]
  · intro hlen
    simp only [apply_ite PongData.game_mode, ite_self,
      show ¬ (8 < (s.splitOn ';').length) from by omega, if_false, ite_false]
  · intro hlen
    simp only [apply_ite PongData.game_mode_numeric, ite_self,
      show ¬ (9 < (s.splitOn ';').length) from by omega, if_false, ite_false]
  · intro hlen
    simp only [apply_ite PongData.port4, ite_self,
      show ¬ (10 < (s.splitOn ';').length) from by omega, if_false, ite_false]
  · intro hlen
    simp only [apply_ite PongData.port6, ite_self,
      show ¬ (11 < (s.splitOn ';').length) from by omega, if_false, ite_false]

/-- Witness for the amended C9 at the two-field payload `A;B`. -/
theorem c9_witness :
    ({ PongData.default with edition := "A".data, motd := "B".data } : PongData).port6
      = PongData.default.port6 :=
  (c9_amended_thm.2 "A;B".data
      { PongData.default with edition := "A".data, motd := "B".data }
      (by decide)).2.2.2.2.2.2.2.2.2.2.2 (by decide)


/-- Claim C8 (confirmed): pong decode never crashes on any input, and returns
a decode error exactly when the buffer is shorter than 35 bytes, the leading
byte is not 0x1c, the declared big-endian 16-bit payload length exceeds the
remaining bytes, or the payload is not valid UTF-8. -/
theorem c8_pong_decode_errors (data : List Byte) :
    UnconnectedPong.fromBytes data ≠ none ∧
    ((∃ e, UnconnectedPong.fromBytes data = some (Except.error e)) ↔
      (data.length < 35 ∨ data.headD 0 ≠ UNCONNECTED_PONG_ID ∨
       data.length < 35 + pongDeclaredLen data ∨
       utf8Decode ((data.drop 35).take (pongDeclaredLen data)) = none)) := by
  rw [pongFromBytes_eq data]
  by_cases h1 : data.length < 35
  · rw [if_pos h1]
    exact ⟨by simp, fun _ => Or.inl h1, fun _ => ⟨_, rfl⟩⟩
  · rw [if_neg h1]
    by_cases h2 : data.headD 0 ≠ UNCONNECTED_PONG_ID
    · rw [if_pos h2]
      exact ⟨by simp, fun _ => Or.inr (Or.inl h2), fun _ => ⟨_, rfl⟩⟩
    · rw [if_neg h2]
      by_cases h3 : data.length < 35 + pongDeclaredLen data
      · rw [if_pos h3]
        exact ⟨by simp, fun _ => Or.inr (Or.inr (Or.inl h3)), fun _ => ⟨_, rfl⟩⟩
      · rw [if_neg h3]
        cases hu : utf8Decode ((data.drop 35).take (pongDeclaredLen data)) with
        | none =>
          exact ⟨fun hc => Option.noConfusion hc,
            fun _ => Or.inr (Or.inr (Or.inr rfl)), fun _ => ⟨_, rfl⟩⟩
        | some s =>
          obtain ⟨q, hq⟩ := fromString_isOk s
          simp only [hq]
          refine ⟨fun hc => Option.noConfusion hc, ?_, ?_⟩
          · intro hex
            obtain ⟨e, he⟩ := hex
            exact Except.noConfusion (Option.some.inj he)
          · intro hfalse
            rcases hfalse with h | h | h | h
            · exact absurd h h1
            · exact absurd h h2
            · exact absurd h h3
            · exact Option.noConfusion h

/-- Witness instantiating C8 at the empty buffer. -/
theorem c8_witness :
    UnconnectedPong.fromBytes [] ≠ none ∧
    ((∃ e, UnconnectedPong.fromBytes [] = some (Except.error e)) ↔
      (([] : List Byte).length < 35 ∨ ([] : List Byte).headD 0 ≠ UNCONNECTED_PONG_ID ∨
       ([] : List Byte).length < 35 + pongDeclaredLen [] ∨
       utf8Decode ((([] : List Byte).drop 35).take (pongDeclaredLen [])) = none)) :=
  c8_pong_decode_errors []

/-- Claim C10 (confirmed): neither decoder validates the 16-byte magic: any
buffer long enough for the fixed ping layout (33 bytes) with id 0x01 decodes
successfully regardless of the bytes in the magic position, and any pong buffer
satisfying the length, id, declared-length and UTF-8 conditions decodes
successfully, the decoded packet carrying whatever bytes occupied the magic
position. -/
theorem c10_magic_not_validated :
    (∀ data : List Byte, 33 ≤ data.length → data.headD 0 = UNCONNECTED_PING_ID →
      UnconnectedPing.fromBytes data =
        some (Except.ok { ping_time := (data.drop 1).take 8, magic := (data.drop 9).take 16,
                          client_id := (data.drop 25).take 8 })) ∧
    (∀ data : List Byte, 35 ≤ data.length → data.headD 0 = UNCONNECTED_PONG_ID →
      35 + pongDeclaredLen data ≤ data.length →
      ∀ s, utf8Decode ((data.drop 35).take (pongDeclaredLen data)) = some s →
      ∃ q, UnconnectedPong.fromBytes data = some (Except.ok q) ∧
        q.magic = (data.drop 17).take 16) := by
  constructor
  · intro data h hid
    exact pingFromBytes_success data h hid
  · intro data h1 h2 h3 s hs
    obtain ⟨q0, hq0⟩ := fromString_isOk s
    refine ⟨{ ping_time := (data.drop 1).take 8, server_guid := (data.drop 9).take 8,
              magic := (data.drop 17).take 16, pong := q0 }, ?_, rfl⟩
    rw [pongFromBytes_eq, if_neg (by omega), if_neg (by simp; simpa using h2), if_neg (by omega)]
    simp only [hs, hq0]

/-- Witness for C10: a ping buffer whose magic position holds 0xab bytes, and
the built default pong. -/
theorem c10_witness :
    (UnconnectedPing.fromBytes c10PingBuf =
      some (Except.ok { ping_time := (c10PingBuf.drop 1).take 8,
                        magic := (c10PingBuf.drop 9).take 16,
                        client_id := (c10PingBuf.drop 25).take 8 })) ∧
    (∃ q, UnconnectedPong.fromBytes UnconnectedPong.new.build = some (Except.ok q) ∧
      q.magic = (UnconnectedPong.new.build.drop 17).take 16) := by
  constructor
  · exact c10_magic_not_validated.1 c10PingBuf (by decide) (by decide)
  · exact c10_magic_not_validated.2 UnconnectedPong.new.build (by decide) (by decide)
      (by decide) PongData.default.intoString (by decide)


end Phantom
